import Mathlib

/-!
Shallow embedding of the compositing and refresh engine of
Adafruit_Blinka_Displayio, together with theorems checking the
natural-language specification against the code.

Every definition is translated from the Python sources under
`src/displayio/` (file and line references are given in the doc
comments).  Machine integers are modelled as `Int`/`Nat` (Python
integers are unbounded), wall-clock instants in milliseconds as `ℚ`
(Python floats; all values appearing in the claims are small exact
values), and fallible code returns `Except String`.
-/

deriving instance DecidableEq for Except

namespace Blinka

/-! ## Area (`src/displayio/_area.py`)

The source stores areas as mutable objects with fields `x1 y1 x2 y2`
(plus an unused `next` link, dropped here); methods that write into an
output object are modelled as functions returning the new value of that
object. -/

/-- `Area` from `_area.py` lines 27-36: a half-open rectangle. -/
structure Area where
  x1 : Int
  y1 : Int
  x2 : Int
  y2 : Int
deriving DecidableEq, Repr

namespace Area

/-- `_empty` (`_area.py` lines 72-73). -/
def isEmpty (a : Area) : Bool :=
  a.x1 == a.x2 || a.y1 == a.y2

/-- `_copy_into` (`_area.py` lines 41-45): overwrites all four fields of
`dst` with those of `src`, so the resulting value of `dst` is `src`. -/
def copyInto (src _dst : Area) : Area := src

/-- `_canon` (`_area.py` lines 75-79). -/
def canon (a : Area) : Area :=
  let a := if a.x1 > a.x2 then { a with x1 := a.x2, x2 := a.x1 } else a
  if a.y1 > a.y2 then { a with y1 := a.y2, y2 := a.y1 } else a

/-- `_union` (`_area.py` lines 81-93).  Note the source copies
`self` into the output when `self` is empty (and `other` when `other`
is empty), i.e. it returns the *empty* operand. -/
def union (self other : Area) : Area :=
  if self.isEmpty then self.copyInto other
  else if other.isEmpty then other.copyInto self
  else { x1 := min self.x1 other.x1, y1 := min self.y1 other.y1,
         x2 := max self.x2 other.x2, y2 := max self.y2 other.y2 }

/-- `_compute_overlap` (`_area.py` lines 59-70): writes the per-axis
max-of-mins / min-of-maxes into `overlap` and reports whether the result
is a non-degenerate rectangle.  When the x-extent is already empty the
source returns early, leaving the y-fields of `overlap` untouched. -/
def computeOverlap (a other overlap : Area) : Area × Bool :=
  let o := { overlap with x1 := max a.x1 other.x1, x2 := min a.x2 other.x2 }
  if o.x1 ≥ o.x2 then (o, false)
  else
    let o := { o with y1 := max a.y1 other.y1, y2 := min a.y2 other.y2 }
    (o, decide (o.y1 < o.y2))

/-- Membership of an integer point in a half-open rectangle (the
interpretation of `Area` used throughout the spec). -/
def memb (a : Area) (px py : Int) : Prop :=
  a.x1 ≤ px ∧ px < a.x2 ∧ a.y1 ≤ py ∧ py < a.y2

instance (a : Area) (px py : Int) : Decidable (a.memb px py) := by
  unfold memb; infer_instance

end Area

/-! ## Bitmap (`src/displayio/_bitmap.py`) -/

/-- `RectangleStruct` from `_structs.py` lines 26-33. -/
structure Rect where
  x1 : Int
  y1 : Int
  x2 : Int
  y2 : Int
deriving DecidableEq, Repr

/-- The state of a `Bitmap` (`_bitmap.py` lines 30-63).  The PIL
`Image` in mode "P" is a flat row-major array of palette indices,
modelled as a list of length `width * height`. -/
structure Bitmap where
  bmp_width : Int
  bmp_height : Int
  read_only : Bool
  bits_per_value : Nat
  pixels : List Int
  dirty_area : Rect
deriving DecidableEq, Repr

/-- The `while (value_count - 1) >> bits:` loop of `Bitmap.__init__`
(`_bitmap.py` lines 46-51); on nonnegative `m`, `m >> bits` is
`m / 2 ^ bits`.  The loop is entered with `bits = 1` and `bits` only
grows; the argument `hb` records `1 ≤ bits`, which justifies
termination (each iteration strictly shrinks `m / 2 ^ bits`). -/
def bitsLoop (m : Nat) (bits : Nat) (hb : 1 ≤ bits) : Nat :=
  if m / 2 ^ bits = 0 then bits
  else if bits < 8 then bitsLoop m (2 * bits) (by omega)  -- bits = bits << 1
  else bitsLoop m (bits + 8) (by omega)
termination_by m / 2 ^ bits
decreasing_by
  · have h1 : 2 ^ (bits + 1) ≤ 2 ^ (2 * bits) :=
      Nat.pow_le_pow_right (by norm_num) (by omega)
    have h2 : m / 2 ^ (2 * bits) ≤ m / 2 ^ (bits + 1) :=
      Nat.div_le_div_left h1 (Nat.pos_pow_of_pos _ (by norm_num))
    have h3 : m / 2 ^ (bits + 1) = m / 2 ^ bits / 2 := by
      rw [pow_succ, Nat.div_div_eq_div_mul]
    have h4 : m / 2 ^ bits / 2 < m / 2 ^ bits :=
      Nat.div_lt_self (Nat.pos_of_ne_zero (by assumption)) (by norm_num)
    omega
  · have h1 : 2 ^ (bits + 1) ≤ 2 ^ (bits + 8) :=
      Nat.pow_le_pow_right (by norm_num) (by omega)
    have h2 : m / 2 ^ (bits + 8) ≤ m / 2 ^ (bits + 1) :=
      Nat.div_le_div_left h1 (Nat.pos_pow_of_pos _ (by norm_num))
    have h3 : m / 2 ^ (bits + 1) = m / 2 ^ bits / 2 := by
      rw [pow_succ, Nat.div_div_eq_div_mul]
    have h4 : m / 2 ^ bits / 2 < m / 2 ^ bits :=
      Nat.div_lt_self (Nat.pos_of_ne_zero (by assumption)) (by norm_num)
    omega

/-- The bits-per-value computed by `Bitmap.__init__` for
`value_count ≥ 1`, where `m = value_count - 1`. -/
def computeBits (m : Nat) : Nat := bitsLoop m 1 (by omega)

/-- `Bitmap.__init__` (`_bitmap.py` lines 33-63).  For `value_count = 0`
the Python loop never terminates (`(-1) >> bits` is `-1`); the claims
only concern `value_count ≥ 1` and all theorems below assume it. -/
def bitmapInit (width height value_count : Int) : Except String Bitmap :=
  if value_count < 0 then .error "value_count must be > 0"
  else
    let bits := computeBits (value_count - 1).toNat
    if bits > 8 ∧ bits ≠ 16 ∧ bits ≠ 32 then .error "Invalid bits per value"
    else .ok { bmp_width := width, bmp_height := height, read_only := false,
               bits_per_value := bits,
               pixels := List.replicate (width.toNat * height.toNat) 0,
               dirty_area := ⟨0, 0, width, height⟩ }

/-- The damage bookkeeping of `Bitmap.__setitem__`
(`_bitmap.py` lines 100-113). -/
def dirtyExtend (d : Rect) (x y : Int) : Rect :=
  if d.x1 = d.x2 then ⟨x, y, x + 1, y + 1⟩
  else
    let d := if x < d.x1 then { d with x1 := x }
             else if x ≥ d.x2 then { d with x2 := x + 1 } else d
    if y < d.y1 then { d with y1 := y }
    else if y ≥ d.y2 then { d with y2 := y + 1 } else d

/-- `Bitmap.__setitem__` (`_bitmap.py` lines 85-113) with an `(x, y)`
tuple index.  `Image.putpixel` rejects coordinates outside the image
(PIL raises), modelled by the bounds check. -/
def bitmapSet (b : Bitmap) (x y value : Int) : Except String Bitmap :=
  if b.read_only then .error "Read-only object"
  else if ¬ (0 ≤ x ∧ x < b.bmp_width ∧ 0 ≤ y ∧ y < b.bmp_height) then
    .error "image index out of range"
  else
    .ok { b with pixels := b.pixels.set (y * b.bmp_width + x).toNat value,
                 dirty_area := dirtyExtend b.dirty_area x y }

/-- `Bitmap._finish_refresh` — the second, overriding definition
(`_bitmap.py` lines 191-195). -/
def bitmapFinishRefresh (b : Bitmap) : Bitmap :=
  if b.read_only then b
  else { b with dirty_area := { b.dirty_area with x1 := 0, x2 := 0 } }

/-- `Bitmap._get_refresh_areas` (`_bitmap.py` lines 197-200). -/
def bitmapGetRefreshAreas (b : Bitmap) (areas : List Rect) : List Rect :=
  if b.dirty_area.x1 = b.dirty_area.x2 ∨ b.read_only then areas
  else areas ++ [b.dirty_area]

end Blinka

namespace Blinka

/-! ## Helper lemmas -/

theorem bitsLoop_stop {m bits : Nat} (hb : 1 ≤ bits) (hz : m < 2 ^ bits) :
    bitsLoop m bits hb = bits := by
  rw [bitsLoop]
  simp [Nat.div_eq_of_lt hz]

theorem bitsLoop_step_lt {m bits : Nat} (hb : 1 ≤ bits) (hnz : 2 ^ bits ≤ m)
    (h8 : bits < 8) : bitsLoop m bits hb = bitsLoop m (2 * bits) (by omega) := by
  rw [bitsLoop]
  have : ¬ m / 2 ^ bits = 0 := by
    have := Nat.one_le_div_iff (Nat.pos_pow_of_pos bits (by norm_num)) |>.mpr hnz
    omega
  simp [this, h8]

theorem bitsLoop_step_ge {m bits : Nat} (hb : 1 ≤ bits) (hnz : 2 ^ bits ≤ m)
    (h8 : ¬ bits < 8) : bitsLoop m bits hb = bitsLoop m (bits + 8) (by omega) := by
  rw [bitsLoop]
  have : ¬ m / 2 ^ bits = 0 := by
    have := Nat.one_le_div_iff (Nat.pos_pow_of_pos bits (by norm_num)) |>.mpr hnz
    omega
  simp [this, h8]

/-- Closed form of the `__init__` bits loop on the range the claims
use: the loop visits `1, 2, 4, 8, 16, 24, 32, ...` and stops at the
first width that holds `m`. -/
theorem computeBits_eval (m : Nat) (hm : m < 2 ^ 32) :
    computeBits m =
      if m < 2 ^ 1 then 1 else if m < 2 ^ 2 then 2 else if m < 2 ^ 4 then 4
      else if m < 2 ^ 8 then 8 else if m < 2 ^ 16 then 16
      else if m < 2 ^ 24 then 24 else 32 := by
  unfold computeBits
  norm_num only at hm ⊢
  by_cases h1 : m < 2
  · rw [bitsLoop_stop _ (by norm_num; omega)]; simp [h1]
  by_cases h2 : m < 4
  · rw [bitsLoop_step_lt _ (by norm_num; omega) (by norm_num),
      bitsLoop_stop _ (by norm_num; omega)]
    simp [h1, h2]
  by_cases h4 : m < 16
  · rw [bitsLoop_step_lt _ (by norm_num; omega) (by norm_num),
      bitsLoop_step_lt _ (by norm_num; omega) (by norm_num),
      bitsLoop_stop _ (by norm_num; omega)]
    simp [h1, h2, h4]
  by_cases h8 : m < 256
  · rw [bitsLoop_step_lt _ (by norm_num; omega) (by norm_num),
      bitsLoop_step_lt _ (by norm_num; omega) (by norm_num),
      bitsLoop_step_lt _ (by norm_num; omega) (by norm_num),
      bitsLoop_stop _ (by norm_num; omega)]
    simp [h1, h2, h4, h8]
  by_cases h16 : m < 65536
  · rw [bitsLoop_step_lt _ (by norm_num; omega) (by norm_num),
      bitsLoop_step_lt _ (by norm_num; omega) (by norm_num),
      bitsLoop_step_lt _ (by norm_num; omega) (by norm_num),
      bitsLoop_step_ge _ (by norm_num; omega) (by norm_num),
      bitsLoop_stop _ (by norm_num; omega)]
    simp [h1, h2, h4, h8, h16]
  by_cases h24 : m < 16777216
  · rw [bitsLoop_step_lt _ (by norm_num; omega) (by norm_num),
      bitsLoop_step_lt _ (by norm_num; omega) (by norm_num),
      bitsLoop_step_lt _ (by norm_num; omega) (by norm_num),
      bitsLoop_step_ge _ (by norm_num; omega) (by norm_num),
      bitsLoop_step_ge _ (by norm_num; omega) (by norm_num),
      bitsLoop_stop _ (by norm_num; omega)]
    simp [h1, h2, h4, h8, h16, h24]
  · rw [bitsLoop_step_lt _ (by norm_num; omega) (by norm_num),
      bitsLoop_step_lt _ (by norm_num; omega) (by norm_num),
      bitsLoop_step_lt _ (by norm_num; omega) (by norm_num),
      bitsLoop_step_ge _ (by norm_num; omega) (by norm_num),
      bitsLoop_step_ge _ (by norm_num; omega) (by norm_num),
      bitsLoop_step_ge _ (by norm_num; omega) (by norm_num),
      bitsLoop_stop _ (by norm_num; omega)]
    simp [h1, h2, h4, h8, h16, h24]

/-- `computeOverlap` returns `true` exactly when the two rectangles
share a point. -/
theorem computeOverlap_true_iff (a b o0 : Area) :
    ((Area.computeOverlap a b o0).2 = true) ↔
      ∃ px py : Int, a.memb px py ∧ b.memb px py := by
  unfold Area.computeOverlap Area.memb
  dsimp only
  split_ifs with hx
  · constructor
    · intro h; exact absurd h (by simp)
    · rintro ⟨px, py, ⟨hax1, hax2, -, -⟩, hbx1, hbx2, -, -⟩
      exfalso
      simp only [ge_iff_le, max_le_iff, min_le_iff] at hx
      omega
  · simp only [decide_eq_true_eq]
    push_neg at hx
    simp only [lt_min_iff, max_lt_iff] at hx
    constructor
    · intro hy
      simp only [lt_min_iff, max_lt_iff] at hy
      exact ⟨max a.x1 b.x1, max a.y1 b.y1,
        ⟨le_max_left _ _, by omega, le_max_left _ _, by omega⟩,
        le_max_right _ _, by omega, le_max_right _ _, by omega⟩
    · rintro ⟨px, py, ⟨-, -, hay1, hay2⟩, -, -, hby1, hby2⟩
      simp only [lt_min_iff, max_lt_iff]
      omega


theorem dirtyExtend_empty (d : Rect) (h : d.x1 = d.x2) (x y : Int) :
    dirtyExtend d x y = ⟨x, y, x + 1, y + 1⟩ := by
  simp [dirtyExtend, h]

theorem dirtyExtend_single (x y x' y' : Int) :
    dirtyExtend ⟨x, y, x + 1, y + 1⟩ x' y' =
      ⟨min x x', min y y', max x x' + 1, max y y' + 1⟩ := by
  unfold dirtyExtend
  dsimp only
  split_ifs <;> simp_all [Rect.mk.injEq] <;> omega

theorem bitmapInit_eval (w h vc : Int) (hvc : 0 ≤ vc) (c : Nat)
    (hc : computeBits (vc - 1).toNat = c) :
    bitmapInit w h vc =
      if c > 8 ∧ c ≠ 16 ∧ c ≠ 32 then .error "Invalid bits per value"
      else .ok { bmp_width := w, bmp_height := h, read_only := false,
                 bits_per_value := c,
                 pixels := List.replicate (w.toNat * h.toNat) 0,
                 dirty_area := ⟨0, 0, w, h⟩ } := by
  rw [bitmapInit, if_neg (by omega : ¬ vc < 0)]
  simp only [hc]

/-- C1: for a writable Bitmap whose dirty area is the empty sentinel
(`x1 = x2`), writing pixel `(x, y)` makes the dirty area the 1×1
rectangle `(x, y)-(x+1, y+1)`; a second write at `(x', y')` grows it to
the minimal bounding rectangle of the two coordinates; and
`_finish_refresh` on a writable Bitmap resets the dirty area to the
empty sentinel (`x1 = x2 = 0`). -/
theorem c1_bitmap_dirty_tracking (b : Bitmap) (x y x' y' v v' : Int)
    (hro : b.read_only = false)
    (hempty : b.dirty_area.x1 = b.dirty_area.x2)
    (hx0 : 0 ≤ x) (hx1 : x < b.bmp_width) (hy0 : 0 ≤ y) (hy1 : y < b.bmp_height)
    (hx0' : 0 ≤ x') (hx1' : x' < b.bmp_width) (hy0' : 0 ≤ y')
    (hy1' : y' < b.bmp_height) :
    ∃ b1 b2 : Bitmap,
      bitmapSet b x y v = .ok b1 ∧
      b1.dirty_area = ⟨x, y, x + 1, y + 1⟩ ∧
      bitmapSet b1 x' y' v' = .ok b2 ∧
      b2.dirty_area = ⟨min x x', min y y', max x x' + 1, max y y' + 1⟩ ∧
      (bitmapFinishRefresh b2).dirty_area.x1 = (bitmapFinishRefresh b2).dirty_area.x2 ∧
      (bitmapFinishRefresh b2).dirty_area.x1 = 0 := by
  have hb1 : bitmapSet b x y v = .ok
      { b with pixels := b.pixels.set (y * b.bmp_width + x).toNat v,
               dirty_area := ⟨x, y, x + 1, y + 1⟩ } := by
    rw [bitmapSet, if_neg (by simp [hro]),
        if_neg (by push_neg; exact ⟨hx0, hx1, hy0, hy1⟩),
        dirtyExtend_empty _ hempty]
  have hb2 : bitmapSet
      { b with pixels := b.pixels.set (y * b.bmp_width + x).toNat v,
               dirty_area := (⟨x, y, x + 1, y + 1⟩ : Rect) } x' y' v' = .ok
      { b with pixels := (b.pixels.set (y * b.bmp_width + x).toNat v).set
                           (y' * b.bmp_width + x').toNat v',
               dirty_area := ⟨min x x', min y y', max x x' + 1, max y y' + 1⟩ } := by
    rw [bitmapSet, if_neg (by simp [hro]),
        if_neg (by push_neg; exact ⟨hx0', hx1', hy0', hy1'⟩),
        dirtyExtend_single]
  exact ⟨_, _, hb1, rfl, hb2, rfl, by simp [bitmapFinishRefresh, hro],
    by simp [bitmapFinishRefresh, hro]⟩

/-- C1 witness: a concrete 4×3 writable bitmap with empty damage,
written at `(1, 2)` and then `(3, 0)`. -/
theorem c1_bitmap_dirty_tracking_witness :
    ∃ b1 b2 : Bitmap,
      bitmapSet ⟨4, 3, false, 1, List.replicate 12 0, ⟨0, 0, 0, 0⟩⟩ 1 2 5 = .ok b1 ∧
      b1.dirty_area = ⟨1, 2, 1 + 1, 2 + 1⟩ ∧
      bitmapSet b1 3 0 6 = .ok b2 ∧
      b2.dirty_area = ⟨min 1 3, min 2 0, max 1 3 + 1, max 2 0 + 1⟩ ∧
      (bitmapFinishRefresh b2).dirty_area.x1 = (bitmapFinishRefresh b2).dirty_area.x2 ∧
      (bitmapFinishRefresh b2).dirty_area.x1 = 0 :=
  c1_bitmap_dirty_tracking ⟨4, 3, false, 1, List.replicate 12 0, ⟨0, 0, 0, 0⟩⟩
    1 2 3 0 5 6 rfl rfl (by decide) (by decide) (by decide) (by decide)
    (by decide) (by decide) (by decide) (by decide)

/-- C3: the claim "`union` of an empty and a non-empty rectangle equals
the non-empty operand, and the union contains both operands" is false
on the code: `_union` copies the *empty* operand into the result
(`_area.py` lines 83-84 copy `self` when `self` is empty), so
`union((0,0,0,0), (1,2,3,4))` is `(0,0,0,0)`, which is not `(1,2,3,4)`
and does not contain the point `(1, 2)` of `(1,2,3,4)`. -/
theorem c3_union_empty_operand_bug :
    Area.union ⟨0, 0, 0, 0⟩ ⟨1, 2, 3, 4⟩ = ⟨0, 0, 0, 0⟩ ∧
    Area.union ⟨0, 0, 0, 0⟩ ⟨1, 2, 3, 4⟩ ≠ ⟨1, 2, 3, 4⟩ ∧
    Area.memb ⟨1, 2, 3, 4⟩ 1 2 ∧
    ¬ Area.memb (Area.union ⟨0, 0, 0, 0⟩ ⟨1, 2, 3, 4⟩) 1 2 := by
  refine ⟨by decide, by decide, by decide, by decide⟩

theorem bitmapInit_ok (w h vc : Int) (hvc : 0 ≤ vc) (c : Nat)
    (hc : computeBits (vc - 1).toNat = c) (hok : ¬ (c > 8 ∧ c ≠ 16 ∧ c ≠ 32)) :
    ∃ b : Bitmap, bitmapInit w h vc = .ok b ∧ b.bits_per_value = c := by
  rw [bitmapInit_eval w h vc hvc c hc, if_neg hok]
  exact ⟨_, rfl, rfl⟩

/-- C9: the claim that every `value_count ≥ 1` succeeds — in
particular that a maximum index needing 17-24 bits yields 32 bits per
value — is false on the code: for `value_count = 65537` (maximum index
65536 needs 17 bits) the widening loop stops at `bits = 24`, which the
constructor rejects with `NotImplementedError("Invalid bits per
value")` instead of producing 32. -/
theorem c9_counterexample :
    bitmapInit 4 4 65537 = .error "Invalid bits per value" := by
  have h2 : computeBits ((65537 : Int) - 1).toNat = 24 := by
    rw [show ((65537 : Int) - 1).toNat = 65536 by decide,
        computeBits_eval 65536 (by norm_num)]
    norm_num
  rw [bitmapInit_eval 4 4 65537 (by norm_num) 24 h2, if_pos (by norm_num)]

/-- C9 (amended): for `value_count ≥ 1`, with `m = value_count - 1`:
if `m` fits in 16 bits the constructor succeeds and bits-per-value is
the smallest element of {1, 2, 4, 8, 16, 32} whose width holds `m`; if
`m` needs 17-24 bits the loop computes 24 and the constructor raises
`NotImplementedError` (it does not yield 32); if `m` needs 25-32 bits
the constructor succeeds with 32 bits per value. -/
theorem c9_bitmap_bits_per_value (w h vc : Int) (hvc : 1 ≤ vc) :
    ((vc - 1).toNat < 2 ^ 16 →
      ∃ b : Bitmap, bitmapInit w h vc = .ok b ∧
        b.bits_per_value ∈ ([1, 2, 4, 8, 16, 32] : List Nat) ∧
        (vc - 1).toNat < 2 ^ b.bits_per_value ∧
        ∀ k ∈ ([1, 2, 4, 8, 16, 32] : List Nat),
          (vc - 1).toNat < 2 ^ k → b.bits_per_value ≤ k) ∧
    (2 ^ 16 ≤ (vc - 1).toNat → (vc - 1).toNat < 2 ^ 24 →
      computeBits (vc - 1).toNat = 24 ∧
      bitmapInit w h vc = .error "Invalid bits per value") ∧
    (2 ^ 24 ≤ (vc - 1).toNat → (vc - 1).toNat < 2 ^ 32 →
      ∃ b : Bitmap, bitmapInit w h vc = .ok b ∧ b.bits_per_value = 32) := by
  have hvc0 : (0 : Int) ≤ vc := by omega
  refine ⟨?_, ?_, ?_⟩
  · intro h16
    have hev := computeBits_eval (vc - 1).toNat (by norm_num at h16 ⊢; omega)
    norm_num only at hev h16
    by_cases h1 : (vc - 1).toNat < 2
    · rw [if_pos h1] at hev
      obtain ⟨b, hb, hbits⟩ := bitmapInit_ok w h vc hvc0 1 hev (by norm_num)
      refine ⟨b, hb, by rw [hbits]; decide, by rw [hbits]; simpa using h1, ?_⟩
      intro k hk hlt
      rw [hbits]
      fin_cases hk <;> first | omega | (norm_num at hlt; omega)
    · rw [if_neg h1] at hev
      by_cases h2 : (vc - 1).toNat < 4
      · rw [if_pos h2] at hev
        obtain ⟨b, hb, hbits⟩ := bitmapInit_ok w h vc hvc0 2 hev (by norm_num)
        refine ⟨b, hb, by rw [hbits]; decide, by rw [hbits]; simpa using h2, ?_⟩
        intro k hk hlt
        rw [hbits]
        fin_cases hk <;> first | omega | (norm_num at hlt; omega)
      · rw [if_neg h2] at hev
        by_cases h4 : (vc - 1).toNat < 16
        · rw [if_pos h4] at hev
          obtain ⟨b, hb, hbits⟩ := bitmapInit_ok w h vc hvc0 4 hev (by norm_num)
          refine ⟨b, hb, by rw [hbits]; decide, by rw [hbits]; simpa using h4, ?_⟩
          intro k hk hlt
          rw [hbits]
          fin_cases hk <;> first | omega | (norm_num at hlt; omega)
        · rw [if_neg h4] at hev
          by_cases h8 : (vc - 1).toNat < 256
          · rw [if_pos h8] at hev
            obtain ⟨b, hb, hbits⟩ := bitmapInit_ok w h vc hvc0 8 hev (by norm_num)
            refine ⟨b, hb, by rw [hbits]; decide, by rw [hbits]; simpa using h8, ?_⟩
            intro k hk hlt
            rw [hbits]
            fin_cases hk <;> first | omega | (norm_num at hlt; omega)
          · rw [if_neg h8, if_pos h16] at hev
            obtain ⟨b, hb, hbits⟩ := bitmapInit_ok w h vc hvc0 16 hev (by norm_num)
            refine ⟨b, hb, by rw [hbits]; decide, by rw [hbits]; simpa using h16, ?_⟩
            intro k hk hlt
            rw [hbits]
            fin_cases hk <;> first | omega | (norm_num at hlt; omega)
  · intro h16 h24
    have hev := computeBits_eval (vc - 1).toNat (by norm_num at h24 ⊢; omega)
    norm_num only at hev h16 h24
    rw [if_neg (by omega), if_neg (by omega), if_neg (by omega), if_neg (by omega),
        if_neg (by omega), if_pos h24] at hev
    exact ⟨hev, by rw [bitmapInit_eval w h vc hvc0 24 hev]; norm_num⟩
  · intro h24 h32
    have hev := computeBits_eval (vc - 1).toNat (by norm_num at h32 ⊢; omega)
    norm_num only at hev h24 h32
    rw [if_neg (by omega), if_neg (by omega), if_neg (by omega), if_neg (by omega),
        if_neg (by omega), if_neg (by omega)] at hev
    obtain ⟨b, hb, hbits⟩ := bitmapInit_ok w h vc hvc0 32 hev (by norm_num)
    exact ⟨b, hb, hbits⟩

/-- C9 witness: instantiated at `value_count = 17`. -/
theorem c9_bitmap_bits_per_value_witness :
    (((17 : Int) - 1).toNat < 2 ^ 16 →
      ∃ b : Bitmap, bitmapInit 4 3 17 = .ok b ∧
        b.bits_per_value ∈ ([1, 2, 4, 8, 16, 32] : List Nat) ∧
        ((17 : Int) - 1).toNat < 2 ^ b.bits_per_value ∧
        ∀ k ∈ ([1, 2, 4, 8, 16, 32] : List Nat),
          ((17 : Int) - 1).toNat < 2 ^ k → b.bits_per_value ≤ k) ∧
    (2 ^ 16 ≤ ((17 : Int) - 1).toNat → ((17 : Int) - 1).toNat < 2 ^ 24 →
      computeBits ((17 : Int) - 1).toNat = 24 ∧
      bitmapInit 4 3 17 = .error "Invalid bits per value") ∧
    (2 ^ 24 ≤ ((17 : Int) - 1).toNat → ((17 : Int) - 1).toNat < 2 ^ 32 →
      ∃ b : Bitmap, bitmapInit 4 3 17 = .ok b ∧ b.bits_per_value = 32) :=
  c9_bitmap_bits_per_value 4 3 17 (by norm_num)

/-- C10: a freshly constructed writable Bitmap with positive
dimensions has the full bitmap rectangle `(0,0)-(width,height)` as its
dirty area (not the empty sentinel), and `_get_refresh_areas` reports
that whole rectangle before any pixel write. -/
theorem c10_fresh_bitmap_reports_full_area (w h vc : Int) (b : Bitmap)
    (hw : 0 < w) (hh : 0 < h)
    (hinit : bitmapInit w h vc = .ok b) (areas : List Rect) :
    b.dirty_area = ⟨0, 0, w, h⟩ ∧ b.read_only = false ∧
    b.dirty_area.x1 ≠ b.dirty_area.x2 ∧
    bitmapGetRefreshAreas b areas = areas ++ [(⟨0, 0, w, h⟩ : Rect)] := by
  simp only [bitmapInit] at hinit
  split_ifs at hinit
  all_goals try exact Except.noConfusion hinit
  simp only [Except.ok.injEq] at hinit
  subst hinit
  refine ⟨rfl, rfl, by simpa using (by omega : ¬ (0 : Int) = w), ?_⟩
  rw [bitmapGetRefreshAreas, if_neg]
  rintro (hc | hc)
  · simp only at hc; omega
  · simp at hc

/-- C10 witness: `Bitmap(4, 3, value_count=16)`. -/
theorem c10_fresh_bitmap_reports_full_area_witness :
    (⟨4, 3, false, 4, List.replicate 12 0, ⟨0, 0, 4, 3⟩⟩ : Bitmap).dirty_area =
        ⟨0, 0, 4, 3⟩ ∧
    (⟨4, 3, false, 4, List.replicate 12 0, ⟨0, 0, 4, 3⟩⟩ : Bitmap).read_only = false ∧
    (⟨4, 3, false, 4, List.replicate 12 0, ⟨0, 0, 4, 3⟩⟩ : Bitmap).dirty_area.x1 ≠
      (⟨4, 3, false, 4, List.replicate 12 0, ⟨0, 0, 4, 3⟩⟩ : Bitmap).dirty_area.x2 ∧
    bitmapGetRefreshAreas ⟨4, 3, false, 4, List.replicate 12 0, ⟨0, 0, 4, 3⟩⟩ [] =
      [] ++ [(⟨0, 0, 4, 3⟩ : Rect)] :=
  c10_fresh_bitmap_reports_full_area 4 3 16 _ (by norm_num) (by norm_num)
    (by rw [bitmapInit_eval 4 3 16 (by norm_num) 4
          (by rw [show ((16 : Int) - 1).toNat = 15 by decide,
                  computeBits_eval 15 (by norm_num)]; norm_num),
          if_neg (by norm_num)]
        norm_num
        decide) []

/-! ## Display refresh (`src/displayio/_display.py`) -/

/-- The display state touched by `Display.refresh` (`_display.py`
lines 119, 153-169, 245-291): `_auto_refresh`,
`_first_manual_refresh`, `_last_refresh_call`, and the core fields
`last_refresh` and `refresh_in_progress` (`_displaycore.py` lines
86-99).  Wall-clock instants (`time.monotonic() * 1000`, a float in
milliseconds) are modelled as rationals and passed in explicitly. -/
structure DisplaySt where
  auto_refresh : Bool
  first_manual_refresh : Bool
  last_refresh_call : ℚ
  core_last_refresh : ℚ
  refresh_in_progress : Bool
deriving DecidableEq, Repr

/-- Effect of `Display._refresh_display` (`_display.py` lines 293-316)
on the modelled state: `start_refresh` (`_displaycore.py` lines
219-228) returns False early when a refresh is already in progress,
else stamps `last_refresh` and runs the drawing pipeline, and
`finish_refresh` (`_displaycore.py` lines 230-239) clears the flag and
stamps `last_refresh` again; the drawing pipeline touches none of the
modelled fields. -/
def refreshDisplayPass (st : DisplaySt) (now : ℚ) : DisplaySt :=
  if st.refresh_in_progress then st
  else { st with core_last_refresh := now, refresh_in_progress := false }

/-- Outcome of `Display.refresh`: a raised `RuntimeError`, or the
returned boolean with the new state.  `passStarted` records whether
`_refresh_display()` — the drawing pass that talks to the bus — was
invoked. -/
inductive RefreshResult where
  | raise (msg : String)
  | ret (value : Bool) (st : DisplaySt) (passStarted : Bool)
deriving DecidableEq, Repr

/-- `Display.refresh` (`_display.py` lines 245-291).  `now` is the
value of `time.monotonic() * 1000` during the call.  `//` on positive
Python ints is `Int` division; `time.sleep` does not change the
modelled state.  `minFps = 0` or `targetFps = some 0` would be a
Python `ZeroDivisionError` and is outside the modelled domain (the
source always divides `1000` by the given rate when it is used). -/
def displayRefresh (st : DisplaySt) (now : ℚ) (targetFps : Option Int)
    (minFps : Int) : RefreshResult :=
  let maximumMsPerRealFrame : Int :=
    if minFps > 0 then 1000 / minFps else 0xFFFFFFFF
  let targetMsPerFrame : Int :=
    match targetFps with
    | none => 0xFFFFFFFF
    | some t => 1000 / t
  if ¬ st.auto_refresh ∧ ¬ st.first_manual_refresh ∧
      targetMsPerFrame ≠ 0xFFFFFFFF then
    if now - st.core_last_refresh > (maximumMsPerRealFrame : ℚ) then
      .raise "Below minimum frame rate"
    else if now - st.last_refresh_call > (targetMsPerFrame : ℚ) then
      .ret false { st with last_refresh_call := now } false
    else
      -- time.sleep(remaining_time / 1000), then fall through
      .ret true
        (refreshDisplayPass
          { st with last_refresh_call := now, first_manual_refresh := false } now)
        true
  else
    .ret true (refreshDisplayPass { st with first_manual_refresh := false } now) true


/-- C2: the claim "refresh returns False when called again within
*less* than 1000/targetFPS ms of the previous call" is false on the
code: with auto-refresh off, a prior manual refresh done and
`target_frames_per_second = 60`, a call only 10 ms (< 1000/60 ms)
after the previous one does not return False — it sleeps out the
frame budget, performs the refresh pass and returns True.  (The code
returns False when *more* than the target interval has elapsed, to
catch up.) -/
theorem c2_counterexample :
    displayRefresh ⟨false, false, 100, 95, false⟩ 110 (some 60) 0 =
      .ret true ⟨false, false, 110, 110, false⟩ true ∧
    (110 : ℚ) - 100 < 1000 / 60 := by
  constructor
  · norm_num [displayRefresh, refreshDisplayPass]
  · norm_num

/-- C2 (amended): with auto-refresh off, a previous manual refresh
done and a target frame rate supplied, when *more* than
`1000 // targetFPS` ms of wall-clock time have elapsed since the
previous refresh call (and the minimum-rate guard passes, minimum
disabled here), `refresh` returns False immediately: no refresh pass
is started — so the bus is not touched — and the only state change is
`_last_refresh_call`. -/
theorem c2_refresh_skips_when_late (st : DisplaySt) (now : ℚ) (t : Int)
    (hauto : st.auto_refresh = false)
    (hfirst : st.first_manual_refresh = false)
    (ht : 1 ≤ t)
    (hmin : now - st.core_last_refresh ≤ ((0xFFFFFFFF : Int) : ℚ))
    (hlate : now - st.last_refresh_call > ((1000 / t : Int) : ℚ)) :
    displayRefresh st now (some t) 0 =
      .ret false { st with last_refresh_call := now } false := by
  have hd0 : (0 : Int) ≤ 1000 / t := Int.ediv_nonneg (by norm_num) (by omega)
  have hd1 : (1000 : Int) / t ≤ 1000 := Int.ediv_le_self t (by norm_num)
  unfold displayRefresh
  dsimp only
  rw [if_neg (show ¬ (0 : Int) > 0 by norm_num)]
  rw [if_pos ⟨by simp [hauto], by simp [hfirst], by omega⟩]
  rw [if_neg (not_lt.mpr hmin)]
  rw [if_pos hlate]

/-- C2 witness: a call 30 ms (> 1000/60 ms) after the previous one. -/
theorem c2_refresh_skips_when_late_witness :
    displayRefresh ⟨false, false, 100, 95, false⟩ 130 (some 60) 0 =
      .ret false ⟨false, false, 130, 95, false⟩ false :=
  c2_refresh_skips_when_late ⟨false, false, 100, 95, false⟩ 130 60
    rfl rfl (by norm_num) (by norm_num) (by norm_num)

/-- C4: the claim that the minimum-frame-rate check fires for every
value of the target-frames-per-second argument — including when no
target frame rate is supplied — is false on the code: with
`minimum_frames_per_second = 30`, auto-refresh off, a prior manual
refresh done, and 1 000 000 ms (≫ 1000/30 ms) elapsed since the last
real refresh, `refresh()` with `target_frames_per_second = None` does
not raise: the whole timing block (`_display.py` lines 271-288),
including the minimum-rate check, is guarded by
`target_ms_per_frame != 0xFFFFFFFF`, so the call refreshes and
returns True. -/
theorem c4_counterexample :
    displayRefresh ⟨false, false, 0, 0, false⟩ 1000000 none 30 =
      .ret true ⟨false, false, 0, 1000000, false⟩ true ∧
    (1000000 : ℚ) - 0 > ((1000 / 30 : Int) : ℚ) := by
  constructor
  · norm_num [displayRefresh, refreshDisplayPass]
  · norm_num

/-- C4 (amended): the fatal minimum-frame-rate check fires only when a
target frame rate is supplied: with `target_frames_per_second` given,
a positive minimum, auto-refresh off, a prior manual refresh done, and
more than `1000 // minFPS` ms elapsed since the last real refresh, the
call raises `RuntimeError("Below minimum frame rate")`. -/
theorem c4_below_min_rate_raises (st : DisplaySt) (now : ℚ) (t minFps : Int)
    (hauto : st.auto_refresh = false)
    (hfirst : st.first_manual_refresh = false)
    (ht : 1 ≤ t) (hminfps : 1 ≤ minFps)
    (hslow : now - st.core_last_refresh > ((1000 / minFps : Int) : ℚ)) :
    displayRefresh st now (some t) minFps = .raise "Below minimum frame rate" := by
  have hd0 : (0 : Int) ≤ 1000 / t := Int.ediv_nonneg (by norm_num) (by omega)
  have hd1 : (1000 : Int) / t ≤ 1000 := Int.ediv_le_self t (by norm_num)
  unfold displayRefresh
  dsimp only
  rw [if_pos (show (0 : Int) < minFps by omega)]
  rw [if_pos ⟨by simp [hauto], by simp [hfirst], by omega⟩]
  rw [if_pos hslow]

/-- C4 witness: 1000 ms since the last real refresh with a 30 fps
minimum and a 60 fps target. -/
theorem c4_below_min_rate_raises_witness :
    displayRefresh ⟨false, false, 0, 0, false⟩ 1000 (some 60) 30 =
      .raise "Below minimum frame rate" :=
  c4_below_min_rate_raises ⟨false, false, 0, 0, false⟩ 1000 60 30
    rfl rfl (by norm_num) (by norm_num) (by norm_num)

/-! ## Transforms and Groups (`src/displayio/_group.py`,
`src/displayio/_structs.py`, `src/displayio/_displaycore.py`) -/

/-- `TransformStruct` (`_structs.py` lines 36-47).  `Group._set_scale`
and the `x`/`y` setters use Python float division, so the numeric
fields are modelled as rationals; for the values reachable under the
invariants below, float arithmetic is exact. -/
structure Transform where
  x : ℚ
  y : ℚ
  dx : ℚ
  dy : ℚ
  scale : ℚ
  transpose_xy : Bool
  mirror_x : Bool
  mirror_y : Bool
deriving DecidableEq, Repr

/-- The `Group` state used by the transform claims (`_group.py` lines
37-54): local position, local scale (a validated Python int),
`_in_group` and `_absolute_transform`. -/
structure GroupSt where
  group_x : Int
  group_y : Int
  scale : Int
  in_group : Bool
  absolute_transform : Transform
deriving DecidableEq, Repr

/-- `Group._update_transform` (`_group.py` lines 56-72) restricted to
the node itself; `_update_child_transforms` re-runs this computation
on each child with the freshly computed transform and does not change
this node. -/
def groupUpdateTransform (parent : Option Transform) (g : GroupSt) : GroupSt :=
  match parent with
  | none => { g with in_group := false }
  | some p =>
    let x : Int := if p.transpose_xy then g.group_y else g.group_x
    let y : Int := if p.transpose_xy then g.group_x else g.group_y
    { g with in_group := true,
             absolute_transform :=
               { x := p.x + p.dx * x, y := p.y + p.dy * y,
                 dx := p.dx * g.scale, dy := p.dy * g.scale,
                 transpose_xy := p.transpose_xy,
                 mirror_x := p.mirror_x, mirror_y := p.mirror_y,
                 scale := p.scale * g.scale } }

/-- `Group._set_scale` (`_group.py` lines 185-201), without the child
propagation (`_update_child_transforms` is `groupUpdateTransform` on
each child). -/
def groupSetScale (g : GroupSt) (value : Int) : Except String GroupSt :=
  if value < 1 then .error "Scale must be >= 1"
  else if g.scale ≠ value then
    .ok { g with
          scale := value,
          absolute_transform :=
            { g.absolute_transform with
              dx := g.absolute_transform.dx / g.scale * value,
              dy := g.absolute_transform.dy / g.scale * value,
              scale := g.absolute_transform.scale / g.scale * value } }
  else .ok g

/-- The `Group.x` setter (`_group.py` lines 208-220), without child
propagation. -/
def groupSetX (g : GroupSt) (value : Int) : GroupSt :=
  if g.group_x ≠ value then
    if g.absolute_transform.transpose_xy then
      { g with group_x := value,
               absolute_transform :=
                 { g.absolute_transform with
                   y := g.absolute_transform.y +
                     g.absolute_transform.dy / g.scale * ((value : ℚ) - g.group_x) } }
    else
      { g with group_x := value,
               absolute_transform :=
                 { g.absolute_transform with
                   x := g.absolute_transform.x +
                     g.absolute_transform.dx / g.scale * ((value : ℚ) - g.group_x) } }
  else g

/-- The `Group.y` setter (`_group.py` lines 227-239), without child
propagation. -/
def groupSetY (g : GroupSt) (value : Int) : GroupSt :=
  if g.group_y ≠ value then
    if g.absolute_transform.transpose_xy then
      { g with group_y := value,
               absolute_transform :=
                 { g.absolute_transform with
                   x := g.absolute_transform.x +
                     g.absolute_transform.dx / g.scale * ((value : ℚ) - g.group_y) } }
    else
      { g with group_y := value,
               absolute_transform :=
                 { g.absolute_transform with
                   y := g.absolute_transform.y +
                     g.absolute_transform.dy / g.scale * ((value : ℚ) - g.group_y) } }
  else g

/-- `Group.__init__` (`_group.py` lines 37-54): validates the scale,
initialises the absolute transform to
`TransformStruct(0, 0, 1, 1, 1, False, False, False)` and applies
`_set_scale(scale)`. -/
def groupInit (scale x y : Int) : Except String GroupSt :=
  if scale < 1 then .error "Scale must be >= 1"
  else
    groupSetScale
      { group_x := x, group_y := y, scale := 1, in_group := false,
        absolute_transform := ⟨0, 0, 1, 1, 1, false, false, false⟩ } scale

/-- The device Transform built by `_DisplayCore.set_rotation`
(`_displaycore.py` lines 130-176), as a function of the rotation and
the (already swapped) width and height. -/
def rotationTransform (rotation width height : Int) : Transform :=
  let rot := rotation % 360
  let t0 : Transform := ⟨0, 0, 1, 1, 1, false, false, false⟩
  let t1 :=
    if rot = 0 ∨ rot = 180 then
      if rot = 180 then { t0 with mirror_x := true, mirror_y := true } else t0
    else
      if rot = 270 then { t0 with transpose_xy := true, mirror_y := true }
      else { t0 with transpose_xy := true, mirror_x := true }
  if t1.transpose_xy then
    let t2 := if t1.mirror_x then { t1 with x := (height : ℚ), dx := -1 } else t1
    if t2.mirror_y then { t2 with y := (width : ℚ), dy := -1 } else t2
  else
    let t2 := if t1.mirror_x then { t1 with x := (width : ℚ), dx := -1 } else t1
    if t2.mirror_y then { t2 with y := (height : ℚ), dy := -1 } else t2

/-- The (amended) transform invariant: positive cumulative scale and
per-axis step signs of magnitude equal to the scale. -/
def TransformInv (t : Transform) : Prop :=
  1 ≤ t.scale ∧ (t.dx = t.scale ∨ t.dx = -t.scale) ∧
    (t.dy = t.scale ∨ t.dy = -t.scale)

/-- Modelled from the spec: `TileGrid` as a scene node.
`src/displayio/_tilegrid.py` is imported by `_group.py` line 23 but is
absent from `src/`; per spec §3 (TileGrid: "`inGroup` flag preventing
double attachment", "detached (inGroup=false) when removed from its
Group") and §4.2 (`updateTransform(parentTransform|None)`: if `None`,
the node is detached (`inGroup=false`), else it stores the freshly
composed absolute transform).  Only the fields these claims need are
modelled; `tg_id` stands for the Python object's identity. -/
structure TileGrid where
  tg_id : Nat
  in_group : Bool
  absolute_transform : Option Transform
deriving DecidableEq, Repr

/-- Modelled from the spec: TileGrid's `updateTransform` (spec §4.2);
`inGroup` becomes true exactly when a parent transform is supplied. -/
def tileGridUpdateTransform (parent : Option Transform) (t : TileGrid) : TileGrid :=
  { t with in_group := parent.isSome, absolute_transform := parent }

/-- A `Group` together with its child list (`_group.py` line 50).  The
claims exercise `TileGrid` children, so the layer list holds
`TileGrid`s; layers are shared mutable Python objects, so each
operation returns the updated layer alongside the updated group. -/
structure GroupNode where
  core : GroupSt
  layers : List TileGrid
deriving DecidableEq, Repr

/-- Python `list.insert` position clamping: negative indices count
from the end, and out-of-range indices clamp. -/
def pyInsertIdx (len : Nat) (i : Int) : Nat :=
  if i < 0 then (max ((len : Int) + i) 0).toNat else min i.toNat len

/-- Python sequence indexing: negative indices count from the end;
out-of-range raises `IndexError`. -/
def pyIdx (len : Nat) (i : Int) : Option Nat :=
  let j := if i < 0 then (len : Int) + i else i
  if 0 ≤ j ∧ j < (len : Int) then some j.toNat else none

/-- `Group.insert` (`_group.py` lines 96-103) for a `TileGrid` layer
(the `isinstance` check passes).  After the splice, `_layer_update
(index)` (lines 85-88) re-reads `self._layers[index]` with Python
indexing and updates that element with the group's absolute transform;
the second component of the result is the state of the passed-in layer
object after the call. -/
def groupInsert (g : GroupNode) (index : Int) (layer : TileGrid) :
    Except String (GroupNode × TileGrid) :=
  if layer.in_group then .error "Layer already in a group."
  else
    let pos := pyInsertIdx g.layers.length index
    let layers := g.layers.insertIdx pos layer
    match pyIdx layers.length index with
    | none => .error "IndexError"
    | some j =>
      match layers[j]? with
      | none => .error "IndexError"
      | some cur =>
        let updated := tileGridUpdateTransform (some g.core.absolute_transform) cur
        .ok ({ g with layers := layers.set j updated },
             if j = pos then updated else layer)

/-- `Group.pop` (`_group.py` lines 111-114): `_removal_cleanup(index)`
(lines 80-83) detaches the layer via `update_transform(None)`, then
`list.pop` splices it out and returns it. -/
def groupPop (g : GroupNode) (index : Int) :
    Except String (GroupNode × TileGrid) :=
  match pyIdx g.layers.length index with
  | none => .error "IndexError"
  | some j =>
    match g.layers[j]? with
    | none => .error "IndexError"
    | some cur =>
      let detached := tileGridUpdateTransform none cur
      .ok ({ g with layers := ((g.layers.set j detached).eraseIdx j) }, detached)

/-- `Group.remove` (`_group.py` lines 116-120): finds the first equal
layer and splices it out with `list.pop`.  Unlike `Group.pop` and
`Group.__setitem__`, it performs no `_removal_cleanup`, so the removed
layer object is returned unchanged. -/
def groupRemove (g : GroupNode) (layer : TileGrid) :
    Except String (GroupNode × TileGrid) :=
  match g.layers.indexOf? layer with
  | none => .error "x not in list"
  | some j => .ok ({ g with layers := g.layers.eraseIdx j }, layer)


/-- C5: the claim `dx, dy ∈ {-1, +1}` is false on the code: a
`Group(scale=2)` attached to the identity device transform gets
`absolute_transform.dx = 2` (`_update_transform` multiplies the parent
step by the local scale, `_group.py` lines 66-67; `_set_scale` does
the same, lines 192-197). -/
theorem c5_counterexample :
    groupInit 2 0 0 = .ok ⟨0, 0, 2, false, ⟨0, 0, 2, 2, 2, false, false, false⟩⟩ ∧
    (groupUpdateTransform (some ⟨0, 0, 1, 1, 1, false, false, false⟩)
        ⟨0, 0, 2, false, ⟨0, 0, 2, 2, 2, false, false, false⟩⟩).absolute_transform.dx
      = 2 ∧
    ¬ ((2 : ℚ) = 1 ∨ (2 : ℚ) = -1) := by
  refine ⟨?_, ?_, by norm_num⟩
  · norm_num [groupInit, groupSetScale, GroupSt.mk.injEq, Transform.mk.injEq]
  · norm_num [groupUpdateTransform]

/-- C5 (amended): every operation that recomputes a Group's absolute
Transform — attachment (`_update_transform`), a local scale change
(`_set_scale`), local `x`/`y` changes, and the device rotation
transform — preserves `scale ≥ 1` together with
`dx, dy ∈ {-scale, +scale}`; the device transform built by
`set_rotation` additionally has `scale = 1` (so there `dx, dy ∈ {-1, +1}`). -/
theorem c5_transform_invariant (p : Transform) (g : GroupSt) (v : Int) (rotation w h : Int)
    (hp : TransformInv p) (hg : 1 ≤ g.scale)
    (hT : TransformInv g.absolute_transform)
    (hle : (g.scale : ℚ) ≤ g.absolute_transform.scale)
    (hv : 1 ≤ v) :
    TransformInv (groupUpdateTransform (some p) g).absolute_transform ∧
    (∀ g', groupSetScale g v = .ok g' → TransformInv g'.absolute_transform) ∧
    TransformInv (groupSetX g v).absolute_transform ∧
    TransformInv (groupSetY g v).absolute_transform ∧
    TransformInv (rotationTransform rotation w h) ∧
    (rotationTransform rotation w h).scale = 1 := by
  obtain ⟨hp1, hp2, hp3⟩ := hp
  obtain ⟨hT1, hT2, hT3⟩ := hT
  have hgq : (1 : ℚ) ≤ (g.scale : ℚ) := by exact_mod_cast hg
  have hgq0 : (g.scale : ℚ) ≠ 0 := by linarith
  have hvq : (1 : ℚ) ≤ (v : ℚ) := by exact_mod_cast hv
  refine ⟨?_, ?_, ?_, ?_, ?_, ?_⟩
  · unfold groupUpdateTransform TransformInv
    dsimp only
    refine ⟨by nlinarith, ?_, ?_⟩
    · rcases hp2 with hh | hh <;> [left; right] <;> rw [hh] <;> ring
    · rcases hp3 with hh | hh <;> [left; right] <;> rw [hh] <;> ring
  · intro g' hok
    unfold groupSetScale at hok
    rw [if_neg (by omega)] at hok
    by_cases hne : g.scale ≠ v
    · rw [if_pos hne] at hok
      simp only [Except.ok.injEq] at hok
      subst hok
      unfold TransformInv
      dsimp only
      have hs1 : (1 : ℚ) ≤ g.absolute_transform.scale / g.scale :=
        (one_le_div (by linarith)).mpr hle
      refine ⟨by nlinarith, ?_, ?_⟩
      · rcases hT2 with hh | hh <;> [left; right] <;> rw [hh] <;> ring
      · rcases hT3 with hh | hh <;> [left; right] <;> rw [hh] <;> ring
    · rw [if_neg hne] at hok
      simp only [Except.ok.injEq] at hok
      subst hok
      exact ⟨hT1, hT2, hT3⟩
  · unfold groupSetX
    split_ifs <;> exact ⟨hT1, hT2, hT3⟩
  · unfold groupSetY
    split_ifs <;> exact ⟨hT1, hT2, hT3⟩
  · unfold rotationTransform TransformInv
    dsimp only
    split_ifs <;> norm_num
  · unfold rotationTransform
    dsimp only
    split_ifs <;> rfl

/-- C5 witness: the identity parent, a fresh scale-1 group, a scale
change to 3 and a 90° rotation on a 128×64 panel. -/
theorem c5_transform_invariant_witness :
    TransformInv (groupUpdateTransform (some ⟨0, 0, 1, 1, 1, false, false, false⟩)
      ⟨0, 0, 1, false, ⟨0, 0, 1, 1, 1, false, false, false⟩⟩).absolute_transform ∧
    (∀ g', groupSetScale ⟨0, 0, 1, false, ⟨0, 0, 1, 1, 1, false, false, false⟩⟩ 3 =
        .ok g' → TransformInv g'.absolute_transform) ∧
    TransformInv (groupSetX ⟨0, 0, 1, false, ⟨0, 0, 1, 1, 1, false, false, false⟩⟩ 3).absolute_transform ∧
    TransformInv (groupSetY ⟨0, 0, 1, false, ⟨0, 0, 1, 1, 1, false, false, false⟩⟩ 3).absolute_transform ∧
    TransformInv (rotationTransform 90 64 128) ∧
    (rotationTransform 90 64 128).scale = 1 :=
  c5_transform_invariant ⟨0, 0, 1, 1, 1, false, false, false⟩
    ⟨0, 0, 1, false, ⟨0, 0, 1, 1, 1, false, false, false⟩⟩ 3 90 64 128
    ⟨by norm_num, Or.inl rfl, Or.inl rfl⟩ (by norm_num)
    ⟨by norm_num, Or.inl rfl, Or.inl rfl⟩ (by norm_num) (by norm_num)

/-- C6: the claim that both `Group.remove(layer)` and
`Group.pop(index)` detach the removed node is false for `remove`:
`pop` runs `_removal_cleanup` (`update_transform(None)`), so the
popped layer comes back with `in_group = false` and its transform
cleared, but `remove` (`_group.py` lines 116-120) splices the layer
out without any cleanup, so the removed layer still has
`in_group = true`. -/
theorem c6_remove_leaves_layer_attached :
    groupRemove ⟨⟨0, 0, 1, false, ⟨0, 0, 1, 1, 1, false, false, false⟩⟩,
        [⟨7, true, some ⟨0, 0, 1, 1, 1, false, false, false⟩⟩]⟩
        ⟨7, true, some ⟨0, 0, 1, 1, 1, false, false, false⟩⟩ =
      .ok (⟨⟨0, 0, 1, false, ⟨0, 0, 1, 1, 1, false, false, false⟩⟩, []⟩,
           ⟨7, true, some ⟨0, 0, 1, 1, 1, false, false, false⟩⟩) ∧
    (⟨7, true, some ⟨0, 0, 1, 1, 1, false, false, false⟩⟩ : TileGrid).in_group ≠ false ∧
    groupPop ⟨⟨0, 0, 1, false, ⟨0, 0, 1, 1, 1, false, false, false⟩⟩,
        [⟨7, true, some ⟨0, 0, 1, 1, 1, false, false, false⟩⟩]⟩ (-1) =
      .ok (⟨⟨0, 0, 1, false, ⟨0, 0, 1, 1, 1, false, false, false⟩⟩, []⟩,
           ⟨7, false, none⟩) := by
  refine ⟨?_, by decide, ?_⟩
  · decide
  · decide

/-- C8: `Group.insert` raises `ValueError("Layer already in a
group.")` whenever the inserted layer is already attached — the check
precedes the splice, so the child list is untouched (the error return
carries no modified group) — and a layer successfully inserted into
one group comes out with `in_group = true`, so inserting the same
TileGrid into a second group raises.  (The layer behaviour relies on
the spec-modelled TileGrid, `_tilegrid.py` being absent from the
sources.) -/
theorem c8_insert_rejects_attached (g1 g2 : GroupNode) (i j : Int) (layer : TileGrid)
    (hi0 : 0 ≤ i) (hi1 : i ≤ (g1.layers.length : Int)) :
    (∀ l' : TileGrid, l'.in_group = true →
        groupInsert g1 i l' = .error "Layer already in a group.") ∧
    (∀ g1' layer', groupInsert g1 i layer = .ok (g1', layer') →
      layer'.in_group = true ∧
      groupInsert g2 j layer' = .error "Layer already in a group.") := by
  have herr : ∀ (g : GroupNode) (k : Int) (l' : TileGrid), l'.in_group = true →
      groupInsert g k l' = .error "Layer already in a group." := by
    intro g k l' h
    unfold groupInsert
    rw [if_pos h]
  refine ⟨herr g1 i, ?_⟩
  intro g1' layer' hok
  by_cases hfree : layer.in_group
  · rw [herr g1 i layer hfree] at hok
    exact absurd hok (by simp)
  · unfold groupInsert at hok
    rw [if_neg hfree] at hok
    have hpos : pyInsertIdx g1.layers.length i = i.toNat := by
      unfold pyInsertIdx
      rw [if_neg (by omega)]
      omega
    rw [hpos] at hok
    dsimp only at hok
    have hlen : (g1.layers.insertIdx i.toNat layer).length = g1.layers.length + 1 :=
      List.length_insertIdx _ _ (by omega)
    have hidx : pyIdx (g1.layers.insertIdx i.toNat layer).length i = some i.toNat := by
      unfold pyIdx
      rw [hlen]
      dsimp only
      simp only [if_neg (show ¬ i < 0 by omega)]
      rw [if_pos ⟨hi0, by push_cast; omega⟩]
    rw [hidx] at hok
    dsimp only at hok
    have hget : (g1.layers.insertIdx i.toNat layer)[i.toNat]? = some layer := by
      rw [List.getElem?_eq_getElem (by omega)]
      rw [List.getElem_insertIdx_self _ _ _ (by omega)]
    rw [hget] at hok
    dsimp only at hok
    simp only [if_pos rfl, Except.ok.injEq, Prod.mk.injEq] at hok
    obtain ⟨-, hl⟩ := hok
    subst hl
    refine ⟨rfl, herr g2 j _ rfl⟩

/-- C8 witness: two empty groups and a detached TileGrid. -/
theorem c8_insert_rejects_attached_witness :
    (∀ l' : TileGrid, l'.in_group = true →
        groupInsert ⟨⟨0, 0, 1, false, ⟨0, 0, 1, 1, 1, false, false, false⟩⟩, []⟩ 0 l' =
          .error "Layer already in a group.") ∧
    (∀ g1' layer',
      groupInsert ⟨⟨0, 0, 1, false, ⟨0, 0, 1, 1, 1, false, false, false⟩⟩, []⟩ 0
          ⟨5, false, none⟩ = .ok (g1', layer') →
      layer'.in_group = true ∧
      groupInsert ⟨⟨0, 0, 2, false, ⟨0, 0, 2, 2, 2, false, false, false⟩⟩, []⟩ 0 layer' =
        .error "Layer already in a group.") :=
  c8_insert_rejects_attached
    ⟨⟨0, 0, 1, false, ⟨0, 0, 1, 1, 1, false, false, false⟩⟩, []⟩
    ⟨⟨0, 0, 2, false, ⟨0, 0, 2, 2, 2, false, false, false⟩⟩, []⟩
    0 0 ⟨5, false, none⟩ (by norm_num) (by norm_num)

/-! ## clip_area (`src/displayio/_displaycore.py`) -/

/-- The `_DisplayCore` state read by `clip_area`
(`_displaycore.py` lines 73-82, 111): the full-device area and the
colorspace fields `depth`, `bytes_per_cell` and
`pixels_in_byte_share_row`. -/
structure DisplayCoreSt where
  area : Area
  depth : Int
  bytes_per_cell : Int
  pixels_in_byte_share_row : Bool
deriving DecidableEq, Repr

/-- The conditional round-down of `clip_area`
(`_displaycore.py` lines 289-290 and 294-295): `if v % ppb != 0:
v -= v % ppb`.  Python `%` on a positive modulus is `Int.emod`. -/
def alignDown (v p : Int) : Int := if v % p ≠ 0 then v - v % p else v

/-- The conditional round-up of `clip_area`
(`_displaycore.py` lines 291-292 and 296-297): `if v % ppb != 0:
v += ppb - v % ppb`. -/
def alignUp (v p : Int) : Int := if v % p ≠ 0 then v + (p - v % p) else v

/-- `_DisplayCore.clip_area` (`_displaycore.py` lines 276-299).  The
overlap step is `Area._compute_overlap` (`_area.py` lines 59-70), the
only compute-overlap routine in the repository (the call site spells
the name without the leading underscore). -/
def clipArea (core : DisplayCoreSt) (area clipped : Area) : Area × Bool :=
  let r := Area.computeOverlap core.area area clipped
  if ¬ r.2 then (r.1, false)
  else if core.depth < 8 then
    let ppb := 8 / core.depth * core.bytes_per_cell
    if core.pixels_in_byte_share_row then
      ({ r.1 with x1 := alignDown r.1.x1 ppb, x2 := alignUp r.1.x2 ppb }, true)
    else
      ({ r.1 with y1 := alignDown r.1.y1 ppb, y2 := alignUp r.1.y2 ppb }, true)
  else (r.1, true)

theorem alignDown_spec (v p : Int) (hp : 0 < p) :
    alignDown v p % p = 0 ∧ alignDown v p ≤ v := by
  unfold alignDown
  have h1 : v - v % p = p * (v / p) := by rw [Int.emod_def]; ring
  have h2 := Int.emod_nonneg v (ne_of_gt hp)
  split_ifs with h
  · constructor
    · rw [h1]; exact Int.mul_emod_right p _
    · omega
  · simp only [ne_eq, not_not] at h
    exact ⟨h, le_refl v⟩

theorem alignUp_spec (v p : Int) (hp : 0 < p) :
    alignUp v p % p = 0 ∧ v ≤ alignUp v p := by
  unfold alignUp
  have h1 : v + (p - v % p) = p * (v / p + 1) := by rw [Int.emod_def]; ring
  have h2 := Int.emod_lt_of_pos v hp
  split_ifs with h
  · constructor
    · rw [h1]; exact Int.mul_emod_right p _
    · omega
  · simp only [ne_eq, not_not] at h
    exact ⟨h, le_refl v⟩

theorem computeOverlap_fst_of_true (a b o0 : Area)
    (h : (Area.computeOverlap a b o0).2 = true) :
    (Area.computeOverlap a b o0).1 =
      ⟨max a.x1 b.x1, max a.y1 b.y1, min a.x2 b.x2, min a.y2 b.y2⟩ := by
  unfold Area.computeOverlap at h ⊢
  dsimp only at h ⊢
  split_ifs at h ⊢ with hx
  all_goals try rfl
  all_goals simp at h

/-- C7: `clip_area` returns false exactly when the requested
rectangle does not overlap the full-device area; when it does overlap
and the colorspace depth is below 8 bits, the clipped rectangle is the
overlap widened outward to whole-byte boundaries along the packed axis
(x when `pixels_in_byte_share_row`, else y), the other axis untouched;
in particular with depth 1, row packing and one byte per cell, a
requested x-range [3, 5) against a 16×16 device becomes [0, 8). -/
theorem c7_clip_area (core : DisplayCoreSt) (req c0 : Area)
    (hd : 0 < core.depth) (hb : 0 < core.bytes_per_cell) :
    ((clipArea core req c0).2 = false ↔
      ¬ ∃ px py : Int, core.area.memb px py ∧ req.memb px py) ∧
    (core.depth < 8 → core.pixels_in_byte_share_row = true →
      (clipArea core req c0).2 = true →
      ((clipArea core req c0).1.x1 % (8 / core.depth * core.bytes_per_cell) = 0 ∧
       (clipArea core req c0).1.x2 % (8 / core.depth * core.bytes_per_cell) = 0 ∧
       (clipArea core req c0).1.x1 ≤ max core.area.x1 req.x1 ∧
       min core.area.x2 req.x2 ≤ (clipArea core req c0).1.x2 ∧
       (clipArea core req c0).1.y1 = max core.area.y1 req.y1 ∧
       (clipArea core req c0).1.y2 = min core.area.y2 req.y2)) ∧
    (core.depth < 8 → core.pixels_in_byte_share_row = false →
      (clipArea core req c0).2 = true →
      ((clipArea core req c0).1.y1 % (8 / core.depth * core.bytes_per_cell) = 0 ∧
       (clipArea core req c0).1.y2 % (8 / core.depth * core.bytes_per_cell) = 0 ∧
       (clipArea core req c0).1.y1 ≤ max core.area.y1 req.y1 ∧
       min core.area.y2 req.y2 ≤ (clipArea core req c0).1.y2 ∧
       (clipArea core req c0).1.x1 = max core.area.x1 req.x1 ∧
       (clipArea core req c0).1.x2 = min core.area.x2 req.x2)) ∧
    clipArea ⟨⟨0, 0, 16, 16⟩, 1, 1, true⟩ ⟨3, 0, 5, 1⟩ ⟨0, 0, 0, 0⟩ =
      (⟨0, 0, 8, 1⟩, true) := by
  refine ⟨?_, ?_, ?_, ?_⟩
  · unfold clipArea
    dsimp only
    by_cases h : (Area.computeOverlap core.area req c0).2
    · rw [if_neg (by simp [h])]
      constructor
      · intro hfalse
        exfalso
        revert hfalse
        split_ifs <;> simp
      · intro hno
        exact (hno ((computeOverlap_true_iff core.area req c0).mp h)).elim
    · have hf : (Area.computeOverlap core.area req c0).2 = false := by simpa using h
      rw [if_pos (by simp [hf])]
      constructor
      · intro _ hex
        rw [(computeOverlap_true_iff core.area req c0).mpr hex] at hf
        exact absurd hf (by simp)
      · intro _
        rfl
  · intro hd8 hrow htrue
    have hppb : 0 < 8 / core.depth * core.bytes_per_cell := by
      have h1 : 1 ≤ 8 / core.depth := by
        rw [Int.le_ediv_iff_mul_le hd]; omega
      nlinarith
    have hr : (Area.computeOverlap core.area req c0).2 = true := by
      by_contra hrf
      rw [Bool.not_eq_true] at hrf
      unfold clipArea at htrue
      rw [if_pos (by simp [hrf])] at htrue
      simp at htrue
    have hfst := computeOverlap_fst_of_true core.area req c0 hr
    unfold clipArea
    dsimp only
    rw [if_neg (by simp [hr]), if_pos hd8, if_pos hrow, hfst]
    dsimp only
    obtain ⟨ha1, ha2⟩ :=
      alignDown_spec (max core.area.x1 req.x1) (8 / core.depth * core.bytes_per_cell) hppb
    obtain ⟨hb1, hb2⟩ :=
      alignUp_spec (min core.area.x2 req.x2) (8 / core.depth * core.bytes_per_cell) hppb
    exact ⟨ha1, hb1, ha2, hb2, rfl, rfl⟩
  · intro hd8 hrow htrue
    have hppb : 0 < 8 / core.depth * core.bytes_per_cell := by
      have h1 : 1 ≤ 8 / core.depth := by
        rw [Int.le_ediv_iff_mul_le hd]; omega
      nlinarith
    have hr : (Area.computeOverlap core.area req c0).2 = true := by
      by_contra hrf
      rw [Bool.not_eq_true] at hrf
      unfold clipArea at htrue
      rw [if_pos (by simp [hrf])] at htrue
      simp at htrue
    have hfst := computeOverlap_fst_of_true core.area req c0 hr
    unfold clipArea
    dsimp only
    rw [if_neg (by simp [hr]), if_pos hd8, if_neg (by simp [hrow]), hfst]
    dsimp only
    obtain ⟨ha1, ha2⟩ :=
      alignDown_spec (max core.area.y1 req.y1) (8 / core.depth * core.bytes_per_cell) hppb
    obtain ⟨hb1, hb2⟩ :=
      alignUp_spec (min core.area.y2 req.y2) (8 / core.depth * core.bytes_per_cell) hppb
    exact ⟨ha1, hb1, ha2, hb2, rfl, rfl⟩
  · decide

/-- C7 witness: the depth-1 row-packed example device. -/
theorem c7_clip_area_witness :
    ((clipArea ⟨⟨0, 0, 16, 16⟩, 1, 1, true⟩ ⟨3, 0, 5, 1⟩ ⟨0, 0, 0, 0⟩).2 = false ↔
      ¬ ∃ px py : Int, (⟨0, 0, 16, 16⟩ : Area).memb px py ∧
          (⟨3, 0, 5, 1⟩ : Area).memb px py) ∧
    ((1 : Int) < 8 → true = true →
      (clipArea ⟨⟨0, 0, 16, 16⟩, 1, 1, true⟩ ⟨3, 0, 5, 1⟩ ⟨0, 0, 0, 0⟩).2 = true →
      ((clipArea ⟨⟨0, 0, 16, 16⟩, 1, 1, true⟩ ⟨3, 0, 5, 1⟩ ⟨0, 0, 0, 0⟩).1.x1 %
          (8 / 1 * 1) = 0 ∧
       (clipArea ⟨⟨0, 0, 16, 16⟩, 1, 1, true⟩ ⟨3, 0, 5, 1⟩ ⟨0, 0, 0, 0⟩).1.x2 %
          (8 / 1 * 1) = 0 ∧
       (clipArea ⟨⟨0, 0, 16, 16⟩, 1, 1, true⟩ ⟨3, 0, 5, 1⟩ ⟨0, 0, 0, 0⟩).1.x1 ≤
          max 0 3 ∧
       min (16 : Int) 5 ≤
          (clipArea ⟨⟨0, 0, 16, 16⟩, 1, 1, true⟩ ⟨3, 0, 5, 1⟩ ⟨0, 0, 0, 0⟩).1.x2 ∧
       (clipArea ⟨⟨0, 0, 16, 16⟩, 1, 1, true⟩ ⟨3, 0, 5, 1⟩ ⟨0, 0, 0, 0⟩).1.y1 =
          max 0 0 ∧
       (clipArea ⟨⟨0, 0, 16, 16⟩, 1, 1, true⟩ ⟨3, 0, 5, 1⟩ ⟨0, 0, 0, 0⟩).1.y2 =
          min 16 1)) ∧
    ((1 : Int) < 8 → true = false →
      (clipArea ⟨⟨0, 0, 16, 16⟩, 1, 1, true⟩ ⟨3, 0, 5, 1⟩ ⟨0, 0, 0, 0⟩).2 = true →
      ((clipArea ⟨⟨0, 0, 16, 16⟩, 1, 1, true⟩ ⟨3, 0, 5, 1⟩ ⟨0, 0, 0, 0⟩).1.y1 %
          (8 / 1 * 1) = 0 ∧
       (clipArea ⟨⟨0, 0, 16, 16⟩, 1, 1, true⟩ ⟨3, 0, 5, 1⟩ ⟨0, 0, 0, 0⟩).1.y2 %
          (8 / 1 * 1) = 0 ∧
       (clipArea ⟨⟨0, 0, 16, 16⟩, 1, 1, true⟩ ⟨3, 0, 5, 1⟩ ⟨0, 0, 0, 0⟩).1.y1 ≤
          max 0 0 ∧
       min (16 : Int) 1 ≤
          (clipArea ⟨⟨0, 0, 16, 16⟩, 1, 1, true⟩ ⟨3, 0, 5, 1⟩ ⟨0, 0, 0, 0⟩).1.y2 ∧
       (clipArea ⟨⟨0, 0, 16, 16⟩, 1, 1, true⟩ ⟨3, 0, 5, 1⟩ ⟨0, 0, 0, 0⟩).1.x1 =
          max 0 3 ∧
       (clipArea ⟨⟨0, 0, 16, 16⟩, 1, 1, true⟩ ⟨3, 0, 5, 1⟩ ⟨0, 0, 0, 0⟩).1.x2 =
          min 16 5)) ∧
    clipArea ⟨⟨0, 0, 16, 16⟩, 1, 1, true⟩ ⟨3, 0, 5, 1⟩ ⟨0, 0, 0, 0⟩ =
      (⟨0, 0, 8, 1⟩, true) :=
  c7_clip_area ⟨⟨0, 0, 16, 16⟩, 1, 1, true⟩ ⟨3, 0, 5, 1⟩ ⟨0, 0, 0, 0⟩
    (by norm_num) (by norm_num)

end Blinka
